import Mathlib

/-!
Verification of the codex CLI streaming adapter
(`core/providers/llm/codex/codex.py`, `core/utils/llm_runtime.py`,
`core/utils/llm_stream.py`) against its natural-language specification.

Modelling conventions:
* JSON values decoded by `json.loads` are modelled by the inductive `JValue`
  (numbers restricted to integers; no claim involves non-integer numbers).
* Each line read from the child process is represented by the result of
  `_parse_event` on it: `none` for an empty line, otherwise the decoded
  `JValue` (an undecodable payload is the raw string, i.e. `JValue.jstr`).
  Quantifying over all such parse results covers all raw lines.
* Python string operations used by the source (`strip`, `lstrip`,
  `startswith`, slicing, `json.dumps`, `str()`) are re-implemented over
  `List Char`, which mirrors Python's per-character semantics for the
  ASCII data these functions handle.
* Wall-clock instants from `time.monotonic()` are supplied by the run as
  exact rationals; only their ordering/differences matter to the code.
-/

/-- Model of a decoded JSON value (result of `json.loads`). -/
inductive JValue where
  | jnull : JValue
  | jbool : Bool → JValue
  | jnum : Int → JValue
  | jstr : String → JValue
  | jarr : List JValue → JValue
  | jobj : List (String × JValue) → JValue

/-- Python truthiness (`bool(x)`) on a decoded JSON value:
`None`, `False`, `0`, `""`, `[]`, `{}` are falsy. -/
def isFalsy : JValue → Bool
  | .jnull => true
  | .jbool b => !b
  | .jnum n => n = 0
  | .jstr s => s = ""
  | .jarr xs => xs.isEmpty
  | .jobj fs => fs.isEmpty

/-- `dict.get(k)`: JSON objects are modelled as association lists with
unique keys (as produced by `json.loads`); first match wins. -/
def jlookup (k : String) : List (String × JValue) → Option JValue
  | [] => none
  | (k', v) :: rest => if k' = k then some v else jlookup k rest

/-- Does `v` equal the JSON string `s`?  (Python `v == s` for a string
literal `s`: only equal when `v` is that string.) -/
def jIsStr (v : JValue) (s : String) : Bool :=
  match v with
  | .jstr t => t = s
  | _ => false

/-- Python `a or b` on JSON values: `b` when `a` is falsy, else `a`. -/
def pyOr (a b : JValue) : JValue := if isFalsy a then b else a

/-- `dict[k] = v` on an association list: overwrite in place or append. -/
def dictInsert {β : Type} (k : String) (v : β) : List (String × β) → List (String × β)
  | [] => [(k, v)]
  | (k', v') :: rest => if k' = k then (k, v) :: rest else (k', v') :: dictInsert k v rest

/-- `dict.pop(k, None)`'s effect on the mapping: remove the key. -/
def dictPop {β : Type} (k : String) (d : List (String × β)) : List (String × β) :=
  d.filter (fun p => p.1 ≠ k)

/-- `dict.get(k)` on an association list. -/
def dictGet {β : Type} (k : String) : List (String × β) → Option β
  | [] => none
  | (k', v) :: rest => if k' = k then some v else dictGet k rest

/-- `dict.get(k, default)` on an association list. -/
def dictGetD {β : Type} (k : String) (dflt : β) (d : List (String × β)) : β :=
  (dictGet k d).getD dflt

/-- Python whitespace for `str.strip` / `str.lstrip` (ASCII range). -/
def isPySpace (c : Char) : Bool :=
  c = ' ' || c = '\t' || c = '\n' || c = '\r' || c = '\x0b' || c = '\x0c'

/-- Python `str.lstrip()`. -/
def pyLstrip (s : String) : String :=
  String.mk (s.data.dropWhile isPySpace)

/-- Python `str.strip()`. -/
def pyStrip (s : String) : String :=
  String.mk (((s.data.dropWhile isPySpace).reverse.dropWhile isPySpace).reverse)

/-- Is `p` a prefix of `s` (as character lists)? -/
def listPref : List Char → List Char → Bool
  | [], _ => true
  | _ :: _, [] => false
  | a :: as, b :: bs => a = b && listPref as bs

/-- Python `s.startswith(p)`. -/
def pyStartsWith (s p : String) : Bool := listPref p.data s.data

/-- Python `"\n".join(parts)`. -/
def joinNL : List String → String
  | [] => ""
  | [x] => x
  | x :: xs => x ++ "\n" ++ joinNL xs

/-- Python `s[n:]` (drop the first `n` characters). -/
def pyDrop (n : Nat) (s : String) : String := String.mk (s.data.drop n)

/-- Python `s[:n]` (take the first `n` characters). -/
def pyTake (n : Nat) (s : String) : String := String.mk (s.data.take n)

/-- Python `len(s)` (number of characters). -/
def pyLen (s : String) : Nat := s.data.length

/-- A word character for the `\b` boundaries of `_UUID_RE`
(ASCII letters, digits, underscore; the claims involve ASCII text only). -/
def isWordChar (c : Char) : Bool := c.isAlpha || c.isDigit || c = '_'

/-- A hexadecimal digit, as matched by `[0-9a-fA-F]`. -/
def isHexChar (c : Char) : Bool :=
  c.isDigit || ('a' ≤ c && c ≤ 'f') || ('A' ≤ c && c ≤ 'F')

/-- Consume exactly `n` hex digits, returning them and the remainder. -/
def takeHexRun : Nat → List Char → Option (List Char × List Char)
  | 0, rest => some ([], rest)
  | _ + 1, [] => none
  | n + 1, c :: rest =>
      if isHexChar c then
        match takeHexRun n rest with
        | some (g, r) => some (c :: g, r)
        | none => none
      else none

/-- Consume a `-` followed by exactly `n` hex digits, extending `acc`. -/
def matchDashHex (n : Nat) : List Char × List Char → Option (List Char × List Char)
  | (acc, '-' :: rest) =>
      match takeHexRun n rest with
      | some (g, r) => some (acc ++ '-' :: g, r)
      | none => none
  | (_, _) => none

/-- Try to match the body of `_UUID_RE` (8-4-4-4-12 hex groups) at the
start of `cs`, requiring the trailing `\b` boundary. -/
def matchUuidAt (cs : List Char) : Option String :=
  match takeHexRun 8 cs with
  | none => none
  | some (g1, r1) =>
    match matchDashHex 4 (g1, r1) with
    | none => none
    | some p2 =>
      match matchDashHex 4 p2 with
      | none => none
      | some p3 =>
        match matchDashHex 4 p3 with
        | none => none
        | some p4 =>
          match matchDashHex 12 p4 with
          | none => none
          | some (acc, rest) =>
            match rest with
            | [] => some (String.mk acc)
            | c :: _ => if isWordChar c then none else some (String.mk acc)

/-- Leftmost search for `_UUID_RE`: try each position in order, with the
leading `\b` boundary checked against the previous character. -/
def findUuidScan : Option Char → List Char → Option String
  | _, [] => none
  | prev, c :: rest =>
      let boundaryOk := match prev with
        | none => true
        | some p => !isWordChar p
      if boundaryOk then
        match matchUuidAt (c :: rest) with
        | some u => some u
        | none => findUuidScan (some c) rest
      else findUuidScan (some c) rest

/-- Embedding of `LLMProvider._find_uuid` applied to a string value:
falsy (empty) input yields `None`, otherwise `_UUID_RE.search`. -/
def find_uuid (s : String) : Option String :=
  if s = "" then none else findUuidScan none s.data

/-- Join with `", "` (the default `json.dumps` item separator). -/
def joinComma : List String → String
  | [] => ""
  | [x] => x
  | x :: xs => x ++ ", " ++ joinComma xs

/-- Lowercase hexadecimal digit for escape sequences. -/
def hexDigitChar (n : Nat) : Char :=
  if n < 10 then Char.ofNat (48 + n) else Char.ofNat (87 + n)

/-- `json.dumps` escaping of one character inside a string literal
(`ensure_ascii=False`, so non-ASCII characters pass through). -/
def jsonEscapeChar (c : Char) : List Char :=
  if c = '"' then ['\\', '"']
  else if c = '\\' then ['\\', '\\']
  else if c = '\n' then ['\\', 'n']
  else if c = '\t' then ['\\', 't']
  else if c = '\r' then ['\\', 'r']
  else if c = '\x08' then ['\\', 'b']
  else if c = '\x0c' then ['\\', 'f']
  else if c.toNat < 32 then
    '\\' :: 'u' :: '0' :: '0' :: [hexDigitChar (c.toNat / 16), hexDigitChar (c.toNat % 16)]
  else [c]

/-- `json.dumps` rendering of a string literal. -/
def dumpString (s : String) : String :=
  String.mk ('"' :: (s.data.map jsonEscapeChar).flatten ++ ['"'])

-- A structural size measure on JSON values, used as recursion fuel for
-- the value traversals that descend through key lookups.
mutual
def jsize : JValue → Nat
  | .jnull => 1
  | .jbool _ => 1
  | .jnum _ => 1
  | .jstr _ => 1
  | .jarr xs => 1 + jsizeL xs
  | .jobj fs => 1 + jsizeO fs
def jsizeL : List JValue → Nat
  | [] => 0
  | v :: rest => 1 + jsize v + jsizeL rest
def jsizeO : List (String × JValue) → Nat
  | [] => 0
  | (_, v) :: rest => 1 + jsize v + jsizeO rest
end

-- Embedding of `json.dumps(v, ensure_ascii=False)` with the default
-- separators `", "` and `": "` (dict order is insertion order, as in Python).
mutual
def dumps : JValue → String
  | .jnull => "null"
  | .jbool b => if b then "true" else "false"
  | .jnum n => toString n
  | .jstr s => dumpString s
  | .jarr xs => "[" ++ dumpsL xs ++ "]"
  | .jobj fs => "\x7b" ++ dumpsO fs ++ "\x7d"
def dumpsL : List JValue → String
  | [] => ""
  | x :: xs => if xs.isEmpty then dumps x else dumps x ++ ", " ++ dumpsL xs
def dumpsO : List (String × JValue) → String
  | [] => ""
  | (k, v) :: fs =>
      if fs.isEmpty then dumpString k ++ ": " ++ dumps v
      else dumpString k ++ ": " ++ dumps v ++ ", " ++ dumpsO fs
end

/-- The apostrophe character (Python's preferred `repr` quote). -/
def squote : Char := Char.ofNat 39

/-- Python `repr` escaping of one character inside a string literal
quoted with `q`. -/
def reprEscapeChar (q : Char) (c : Char) : List Char :=
  if c = '\\' then ['\\', '\\']
  else if c = q then ['\\', q]
  else if c = '\n' then ['\\', 'n']
  else if c = '\r' then ['\\', 'r']
  else if c = '\t' then ['\\', 't']
  else if c.toNat < 32 || c.toNat = 127 then
    '\\' :: 'x' :: [hexDigitChar (c.toNat / 16), hexDigitChar (c.toNat % 16)]
  else [c]

/-- Python `repr` of a string: single-quoted unless the string contains
an apostrophe but no double quote. -/
def reprString (s : String) : String :=
  let q := if s.data.contains squote && !s.data.contains '"' then '"' else squote
  String.mk (q :: (s.data.map (reprEscapeChar q)).flatten ++ [q])

-- Python `repr` of a decoded JSON value.
mutual
def pyRepr : JValue → String
  | .jnull => "None"
  | .jbool b => if b then "True" else "False"
  | .jnum n => toString n
  | .jstr s => reprString s
  | .jarr xs => "[" ++ pyReprL xs ++ "]"
  | .jobj fs => "\x7b" ++ pyReprO fs ++ "\x7d"
def pyReprL : List JValue → String
  | [] => ""
  | x :: xs => if xs.isEmpty then pyRepr x else pyRepr x ++ ", " ++ pyReprL xs
def pyReprO : List (String × JValue) → String
  | [] => ""
  | (k, v) :: fs =>
      if fs.isEmpty then reprString k ++ ": " ++ pyRepr v
      else reprString k ++ ": " ++ pyRepr v ++ ", " ++ pyReprO fs
end

/-- Python `str(v)` as used by f-string interpolation: a string renders
as itself, anything else via `repr`. -/
def pyStrOf (v : JValue) : String :=
  match v with
  | .jstr s => s
  | _ => pyRepr v

/-- `STATUS_PREFIX` of `core/utils/llm_stream.py`. -/
def statusMark : String := "[[status]]"

/-- Embedding of `llm_stream.wrap_status`. -/
def wrap_status (text : String) : String :=
  if text = "" then "" else statusMark ++ text

/-- Embedding of `llm_stream.extract_status`: falsy content gives `None`;
content starting with the prefix gives the remainder after the prefix,
left-stripped; anything else gives `None`. -/
def extract_status (content : String) : Option String :=
  if content = "" then none
  else if pyStartsWith content statusMark then
    some (pyLstrip (pyDrop (pyLen statusMark) content))
  else none

/-- The abort-block registry `_abort_blocked` of `core/utils/llm_runtime.py`,
a process-wide dict from session id to `True`. -/
abbrev AbortReg := List (String × Bool)

/-- Embedding of `llm_runtime.block_abort`: no-op on a falsy session id,
otherwise insert/overwrite `True`. -/
def block_abort (sid : String) (reg : AbortReg) : AbortReg :=
  if sid = "" then reg else dictInsert sid true reg

/-- Embedding of `llm_runtime.unblock_abort`: no-op on a falsy session id,
otherwise remove the key. -/
def unblock_abort (sid : String) (reg : AbortReg) : AbortReg :=
  if sid = "" then reg else dictPop sid reg

/-- Embedding of `llm_runtime.is_abort_blocked`: `False` for a falsy
session id, otherwise `get(sid, False)`. -/
def is_abort_blocked (sid : String) (reg : AbortReg) : Bool :=
  if sid = "" then false else dictGetD sid false reg

/-- Embedding of `llm_runtime.clear_session` (alias of `unblock_abort`). -/
def clear_session (sid : String) (reg : AbortReg) : AbortReg :=
  unblock_abort sid reg

/-- Static configuration of `LLMProvider` (`__init__`), after the string
coercions the constructor applies (`cwd`/`env`/logging are irrelevant to
the modelled behaviour and omitted). -/
structure Config where
  command : String
  args : List String
  prompt_mode : String
  prompt_via_stdin : Bool
  debug_events : Bool
  debug_event_target : String
  debug_command_output : Bool
  debug_command_output_max_chars : Int
  stderr_summary_enabled : Bool
  stderr_summary_min_interval : ℚ
  resume_session : Bool

/-- Embedding of `LLMProvider._filter_args`: drop the subcommand tokens
`exec`/`resume`/`e` and the stdin marker `-`. -/
def filter_args (args : List String) : List String :=
  args.filter (fun a => !(a = "exec" || a = "resume" || a = "e" || a = "-"))

/-- The `if "--json" not in args: args.append("--json")` step of
`_build_command` (append the token only when absent). -/
def ensureTok (x : String) (args : List String) : List String :=
  if args.contains x then args else args ++ [x]

/-- The `if self.prompt_via_stdin and "-" not in args: args.append("-")`
step of `_build_command`. -/
def ensureStdinTok (stdin : Bool) (args : List String) : List String :=
  if stdin && !args.contains "-" then args ++ ["-"] else args

/-- The `if not any(arg in ("exec", "e") ...): args.insert(0, "exec")`
step of `_build_command`. -/
def ensureSubcommand (args : List String) : List String :=
  if args.any (fun a => a = "exec" || a = "e") then args else "exec" :: args

/-- Embedding of `LLMProvider._build_command`, as the composition of its
sequential argument-vector fixups.  `resume_id` is the Python argument;
`if resume_id:` treats `None` and `""` alike. -/
def build_command (cfg : Config) (resume_id : Option String) : List String :=
  let rid := resume_id.getD ""
  if rid ≠ "" then
    [cfg.command, "exec", "resume", rid] ++
      ensureStdinTok cfg.prompt_via_stdin (ensureTok "--json" (filter_args cfg.args))
  else
    cfg.command ::
      ensureStdinTok cfg.prompt_via_stdin (ensureTok "--json" (ensureSubcommand cfg.args))

/-- One dialogue message.  `role = none` models a missing `role` key;
`content = none` models a missing key and `content = some none` a JSON
`null` value (the two behave differently in `last_user` mode). -/
structure Message where
  role : Option String
  content : Option (Option String)

/-- A Python string-or-None value (`none` is Python `None`). -/
abbrev PStr := Option String

/-- `msg.get("content", "")`: the default only applies when the key is
absent; a stored `null` comes back as `None`. -/
def contentGet (m : Message) : PStr :=
  match m.content with
  | none => some ""
  | some c => c

/-- `msg.get("content", "")` followed by the `None → ""` replacement of
the `full_dialogue` branch. -/
def contentStr (m : Message) : String :=
  match contentGet m with
  | none => ""
  | some s => s

/-- The `reversed(dialogue)` scan of the `last_user` branch, operating on
the already-reversed list. -/
def lastUserLoop : List Message → PStr
  | [] => some ""
  | m :: rest => if m.role = some "user" then contentGet m else lastUserLoop rest

/-- One rendered line of the `full_dialogue` branch:
`msg.get("role", "user")` selects the label, unknown roles fall through
to `User`. -/
def renderMsg (m : Message) : String :=
  let role := m.role.getD "user"
  let content := contentStr m
  if role = "system" then "System: " ++ content
  else if role = "assistant" then "Assistant: " ++ content
  else if role = "tool" then "Tool: " ++ content
  else "User: " ++ content

/-- Embedding of `LLMProvider._build_prompt` (with the effective prompt
mode already resolved by the caller, as `response` does). -/
def build_prompt (dialogue : List Message) (prompt_mode : String) : PStr :=
  if prompt_mode = "last_user" then lastUserLoop dialogue.reverse
  else some (joinNL (dialogue.map renderMsg))

/-- The well-known identifier keys of `_extract_session_id`, in probe
order.  The source probes the first six inside a tuple literal and `id`
afterwards; the control flow is the same as probing this list in order. -/
def sessionKeys : List String :=
  ["session_id", "sessionId", "conversation_id", "conversationId",
   "session", "conversation", "id"]

/-- Recursion fuel for the traversals that descend through key lookups
(`_extract_session_id`, `_collect_text`): every recursive call consumes
one unit, and `8 * jsize v + 8` strictly exceeds the number of nested
calls any of those traversals can make on `v` (each value descent reaches
a value of strictly smaller `jsize`, and each level adds at most the
fixed well-known-key list on top of the list lengths already counted by
`jsize`), so the fuel-exhaustion cases below are unreachable from the
wrappers. -/
def jfuel (v : JValue) : Nat := 8 * jsize v + 8

-- Embedding of `LLMProvider._extract_session_id`.  The recursion
-- descends through `event.get(key)` lookups, which are not structural
-- subterms, so it is driven by `jfuel` fuel (structural on `Nat`).
-- `_extract_session_id(None)` (an absent key) is `None`, folded into the
-- lookup match.
mutual
def extractSidF : Nat → JValue → Option String
  | 0, _ => none
  | _ + 1, .jnull => none
  | _ + 1, .jbool _ => none
  | _ + 1, .jnum _ => none
  | _ + 1, .jstr s => if s = "" then none else find_uuid s
  | f + 1, .jarr xs => if xs.isEmpty then none else extractSidList f xs
  | f + 1, .jobj fs =>
      if fs.isEmpty then none
      else
        match extractSidKeys f fs sessionKeys with
        | some c => some c
        | none => find_uuid (dumps (.jobj fs))
def extractSidList : Nat → List JValue → Option String
  | 0, _ => none
  | _ + 1, [] => none
  | f + 1, x :: xs =>
      match extractSidF f x with
      | some c => some c
      | none => extractSidList f xs
def extractSidKeys : Nat → List (String × JValue) → List String → Option String
  | 0, _, _ => none
  | _ + 1, _, [] => none
  | f + 1, fs, k :: ks =>
      match jlookup k fs with
      | some v =>
          match extractSidF f v with
          | some c => some c
          | none => extractSidKeys f fs ks
      | none => extractSidKeys f fs ks
end

/-- Embedding of `LLMProvider._extract_session_id` (top level; `not event`
falsy events yield `None` inside the structure of `extractSidF`). -/
def extract_session_id (event : JValue) : Option String :=
  extractSidF (jfuel event) event

/-- Embedding of `LLMProvider._store_session_id`: falsy session id or
falsy event is a no-op; an extracted truthy candidate overwrites the
per-session mapping. -/
def store_session_id (sid : String) (event : JValue)
    (m : List (String × String)) : List (String × String) :=
  if sid = "" || isFalsy event then m
  else
    match extract_session_id event with
    | none => m
    | some c => if c = "" then m else dictInsert sid c m

/-- Embedding of `LLMProvider._get_resume_id`. -/
def get_resume_id (sid : String) (m : List (String × String)) : Option String :=
  if sid = "" then none else dictGet sid m

/-- The key preference order of `_collect_text` for dict values. -/
def collectKeys : List String :=
  ["text", "content", "message", "output", "delta", "data", "response",
   "result", "final"]

-- Embedding of `LLMProvider._collect_text` (the mutated `items` list is
-- returned).  Like `extractSidF` this descends through key lookups, so it
-- is fueled by `jfuel` (structural on `Nat`); the fuel-exhaustion cases
-- are unreachable from the wrapper.
mutual
def collectTextF : Nat → JValue → List String
  | 0, _ => []
  | _ + 1, .jnull => []
  | _ + 1, .jbool _ => []
  | _ + 1, .jnum _ => []
  | _ + 1, .jstr s => if s = "" then [] else [s]
  | f + 1, .jarr xs => collectTextList f xs
  | f + 1, .jobj fs => collectTextKeys f fs collectKeys
def collectTextList : Nat → List JValue → List String
  | 0, _ => []
  | _ + 1, [] => []
  | f + 1, x :: xs => collectTextF f x ++ collectTextList f xs
def collectTextKeys : Nat → List (String × JValue) → List String → List String
  | 0, _, _ => []
  | _ + 1, _, [] => []
  | f + 1, fs, k :: ks =>
      (match jlookup k fs with
       | some v => collectTextF f v
       | none => []) ++ collectTextKeys f fs ks
end

/-- Embedding of `LLMProvider._collect_text` applied to a value (with the
`items` accumulator returned). -/
def collect_text (v : JValue) : List String :=
  collectTextF (jfuel v) v

/-- Python `s.endswith(p)`. -/
def pyEndsWith (s p : String) : Bool := listPref p.data.reverse s.data.reverse

/-- A Python exception escaping from the modelled code.  The only
unguarded raise sites in the streaming path are attribute accesses
(`.startswith`/`.endswith`/`.strip`) on non-string values. -/
inductive PyError where
  | attributeError : PyError
deriving DecidableEq

/-- `event.get(k, "")` followed by a string-method call: absent gives
`""`; a present non-string value raises `AttributeError` at the method
call. -/
def getStrAttr (k : String) (fs : List (String × JValue)) : Except PyError String :=
  match jlookup k fs with
  | none => .ok ""
  | some (.jstr s) => .ok s
  | some _ => .error .attributeError

/-- Embedding of `LLMProvider._extract_codex_item_text`. -/
def extract_codex_item_text (event : JValue) : Except PyError (List String) :=
  match event with
  | .jobj fs =>
      match getStrAttr "type" fs with
      | .error e => .error e
      | .ok event_type =>
        if !pyStartsWith event_type "item." then .ok []
        else
          let item := pyOr ((jlookup "item" fs).getD .jnull)
            (pyOr ((jlookup "delta" fs).getD .jnull) (.jobj []))
          match item with
          | .jobj ifs =>
              let item_type := (jlookup "type" ifs).getD (.jstr "")
              if jIsStr item_type "agent_message" || jIsStr item_type "assistant_message"
                  || jIsStr item_type "message" then
                .ok (collect_text (.jobj ifs))
              else .ok []
          | _ => .ok []
  | _ => .ok []

/-- Embedding of `LLMProvider._format_debug_event`. -/
def format_debug_event (cfg : Config) (event : JValue) : Except PyError (List String) :=
  if !cfg.debug_events then .ok []
  else match event with
  | .jobj fs =>
    match getStrAttr "type" fs with
    | .error e => .error e
    | .ok event_type =>
      if !pyStartsWith event_type "item." then .ok []
      else
        let item := pyOr ((jlookup "item" fs).getD .jnull)
          (pyOr ((jlookup "delta" fs).getD .jnull) (.jobj []))
        match item with
        | .jobj ifs =>
          let item_type := (jlookup "type" ifs).getD (.jstr "")
          if jIsStr item_type "reasoning" then
            let textv := (jlookup "text" ifs).getD .jnull
            if isFalsy textv then .ok []
            else match textv with
              | .jstr s => .ok (["[codex.reasoning] " ++ pyStrip s])
              | _ => .error .attributeError
          else if !(jIsStr item_type "command_execution") then .ok []
          else
            let command := pyOr ((jlookup "command" ifs).getD .jnull) (.jstr "")
            match (match pyOr ((jlookup "status" ifs).getD .jnull) (.jstr "") with
                   | .jstr s => Except.ok (pyStrip s)
                   | _ => Except.error PyError.attributeError) with
            | .error e => .error e
            | .ok status =>
              let exit_text := match (jlookup "exit_code" ifs).getD .jnull with
                | .jnull => ""
                | v => " exit=" ++ pyStrOf v
              let pfx := pyStrip ("[codex.command] " ++ status ++ exit_text)
              let msgs := if isFalsy command then [pfx]
                else [pfx ++ ": " ++ pyStrOf command]
              if !cfg.debug_command_output then .ok msgs
              else
                match pyOr ((jlookup "aggregated_output" ifs).getD .jnull) (.jstr "") with
                | .jstr s =>
                    let output := pyStrip s
                    if output = "" then .ok msgs
                    else
                      let output :=
                        if cfg.debug_command_output_max_chars > 0 &&
                            (pyLen output : Int) > cfg.debug_command_output_max_chars then
                          pyTake cfg.debug_command_output_max_chars.toNat output
                            ++ "...(truncated)"
                        else output
                      .ok (msgs ++ ["[codex.command.output] " ++ output])
                | _ => .error .attributeError
        | _ => .ok []
  | _ => .ok []

/-- Embedding of `LLMProvider._extract_text_chunks` on a decoded event
(the `event is None` case is handled at the call site, as the loop's
`line` match does). -/
def extract_text_chunks (event : JValue) : Except PyError (List String) :=
  match event with
  | .jstr s => .ok [s]
  | .jobj fs =>
      match extract_codex_item_text (.jobj fs) with
      | .error e => .error e
      | .ok codex_items =>
        if !codex_items.isEmpty then .ok codex_items
        else
          match jlookup "type" fs with
          | some (.jstr t) =>
              if t = "" then .ok (collect_text (.jobj fs))
              else if pyEndsWith t ".delta" || pyEndsWith t ".text.delta" then
                .ok (collect_text (pyOr ((jlookup "delta" fs).getD .jnull)
                  ((jlookup "text" fs).getD .jnull)))
              else if pyEndsWith t ".error" then
                .ok (collect_text (pyOr ((jlookup "error" fs).getD .jnull)
                  ((jlookup "message" fs).getD .jnull)))
              else .ok (collect_text (.jobj fs))
          | some v =>
              if isFalsy v then .ok (collect_text (.jobj fs))
              else .error .attributeError
          | none => .ok (collect_text (.jobj fs))
  | _ => .ok []

/-- Embedding of `LLMProvider._event_to_text`. -/
def event_to_text (event : JValue) : Except PyError String :=
  match extract_text_chunks event with
  | .error e => .error e
  | .ok chunks => if chunks.isEmpty then .ok "" else .ok (pyStrip (joinNL chunks))

/-- The process-wide mutable state shared by `llm_runtime` and the
provider instance: the abort-block registry, the session → resume-id map
(`_session_map`), the per-session prompt-mode state
(`_prompt_mode_state`), and `_warned_missing_resume`. -/
structure GlobalState where
  abortBlocked : AbortReg
  sessionMap : List (String × String)
  promptModeState : List (String × Bool)
  warnedMissingResume : Bool
deriving DecidableEq

/-- Embedding of `LLMProvider._get_effective_prompt_mode`; returns the
effective mode together with the state (the one-shot warning flag may be
set). -/
def get_effective_prompt_mode (cfg : Config) (st : GlobalState) (sid : String) :
    String × GlobalState :=
  if cfg.prompt_mode ≠ "first_full_then_last" then (cfg.prompt_mode, st)
  else
    let st := if !cfg.resume_session && !st.warnedMissingResume then
        { st with warnedMissingResume := true }
      else st
    if sid = "" then ("full_dialogue", st)
    else if dictGetD sid false st.promptModeState then ("last_user", st)
    else ("full_dialogue", st)

/-- Embedding of `LLMProvider._mark_prompt_sent`. -/
def mark_prompt_sent (cfg : Config) (st : GlobalState) (sid : String) : GlobalState :=
  if cfg.prompt_mode ≠ "first_full_then_last" then st
  else if sid = "" then st
  else { st with promptModeState := dictInsert sid true st.promptModeState }

/-- Which stream a queued line came from. -/
inductive StreamName where
  | stdout : StreamName
  | stderr : StreamName
deriving DecidableEq

/-- One `(name, line)` pair drained from the reader queue, represented by
the result of `_parse_event` on the line (`none` for a line whose parse
is `None`, i.e. an empty/whitespace line), plus the `time.monotonic()`
instant observed while handling it. -/
structure RunItem where
  src : StreamName
  line : Option JValue
  time : ℚ

/-- Outcome of the `subprocess.Popen` call. -/
inductive SpawnResult where
  | ok : SpawnResult
  | fileNotFound : SpawnResult
  | startError : SpawnResult
deriving DecidableEq

/-- One run of the child process as observed by the streaming loop: how
the spawn went, the queued lines of both streams in queue order (each
stream's lines precede its end-of-stream sentinel, after which the loop
exits), and the exit status from `proc.wait()`. -/
structure Run where
  spawn : SpawnResult
  items : List RunItem
  exitCode : Int

/-- Modelled from the spec: the external stderr summarizer
`stderr_summary.summarize` (its module is not among the sources under
study; only `codex.py` imports it).  Per the spec's error taxonomy a
"downstream summarizer failure ... must not be allowed to crash the
control task; treated as 'no summary' for that line", so the summarizer
presents a total interface: `none` covers both "no summary" and an
internally swallowed failure, and the caller additionally treats an empty
string as no summary via its `if not summary` check. -/
abbrev Summarizer := String → Option String

/-- The local state of one `response` call's streaming loop, together
with the shared registries it mutates and the chunks yielded so far.
`raised` records an exception that escaped the loop body (the loop stops
processing further queue items once set). -/
structure LoopState where
  reg : AbortReg
  sessionMap : List (String × String)
  stdout_started : Bool
  abort_blocked : Bool
  last_summary : Option String
  last_time : ℚ
  chunks : List String
  raised : Option PyError

/-- The `for chunk in self._extract_text_chunks(event):` loop:
skip falsy chunks; on the first kept chunk flip `stdout_started` and
clear the abort-block flag if set; yield the chunk. -/
def emitChunks (sid : String) : List String → LoopState → LoopState
  | [], s => s
  | c :: cs, s =>
      if c = "" then emitChunks sid cs s
      else
        let s :=
          if !s.stdout_started then
            let s := { s with stdout_started := true }
            if s.abort_blocked then
              { s with reg := unblock_abort sid s.reg, abort_blocked := false }
            else s
          else s
        emitChunks sid cs { s with chunks := s.chunks ++ [c] }

/-- The `if name == "stderr":` block of the streaming loop (the
diagnostic gate): drop the line once content has started or when
summaries are disabled; otherwise convert to text, summarize, debounce,
set the abort-block flag if down, and yield the wrapped summary. -/
def stderrStep (cfg : Config) (summ : Summarizer) (sid : String)
    (s : LoopState) (event : JValue) (now : ℚ) : LoopState :=
  if s.stdout_started || !cfg.stderr_summary_enabled then s
  else
    match event_to_text event with
    | .error e => { s with raised := some e }
    | .ok stderr_text =>
      if stderr_text = "" then s
      else
        match summ stderr_text with
        | none => s
        | some summary0 =>
          if summary0 = "" then s
          else
            let summary := pyStrip summary0
            if summary = "" then s
            else if cfg.stderr_summary_min_interval > 0 &&
                now - s.last_time < cfg.stderr_summary_min_interval then s
            else if s.last_summary = some summary then s
            else
              let s :=
                if !s.abort_blocked then
                  { s with reg := block_abort sid s.reg, abort_blocked := true }
                else s
              { s with last_summary := some summary, last_time := now,
                       chunks := s.chunks ++ [wrap_status summary] }

/-- The stdout part of the streaming loop body: debug-event formatting
(yielded as status fragments or logged, per `debug_event_target`),
then text extraction and chunk emission. -/
def stdoutStep (cfg : Config) (sid : String) (s : LoopState) (event : JValue) :
    LoopState :=
  match format_debug_event cfg event with
  | .error e => { s with raised := some e }
  | .ok debug_texts =>
    let s :=
      if cfg.debug_event_target = "status" then
        { s with chunks := s.chunks ++ debug_texts.map wrap_status }
      else s
    match extract_text_chunks event with
    | .error e => { s with raised := some e }
    | .ok cs => emitChunks sid cs s

/-- One iteration of the `while not (stdout_done and stderr_done)` loop
of `LLMProvider.response` for a dequeued line, mirroring the source's
control flow: store any session id, route stderr lines to the diagnostic
gate, route stdout lines to debug formatting and text extraction.  A
raise inside the body marks `raised` and freezes the state, modelling the
exception escaping the `try` (which has only a `finally`). -/
def processItem (cfg : Config) (summ : Summarizer) (sid : String)
    (s : LoopState) (it : RunItem) : LoopState :=
  if s.raised.isSome then s
  else match it.line with
  | none => s
  | some event =>
    let s := { s with sessionMap := store_session_id sid event s.sessionMap }
    match it.src with
    | .stderr => stderrStep cfg summ sid s event it.time
    | .stdout => stdoutStep cfg sid s event

/-- The streaming loop over the queued items. -/
def runLoop (cfg : Config) (summ : Summarizer) (sid : String) :
    LoopState → List RunItem → LoopState
  | s, [] => s
  | s, it :: rest => runLoop cfg summ sid (processItem cfg summ sid s it) rest

/-- The loop state at loop entry, over the shared state as it stands
after the spawn. -/
def initLoop (st : GlobalState) : LoopState :=
  { reg := st.abortBlocked, sessionMap := st.sessionMap,
    stdout_started := false, abort_blocked := false,
    last_summary := none, last_time := 0, chunks := [], raised := none }

/-- The shared state after mode resolution and, on a successful spawn,
the (early) `_mark_prompt_sent` call guarded by
`effective_prompt_mode == "full_dialogue"`. -/
def postSpawnState (cfg : Config) (st0 : GlobalState) (sid : String) : GlobalState :=
  let ms := get_effective_prompt_mode cfg st0 sid
  if ms.1 = "full_dialogue" then mark_prompt_sent cfg ms.2 sid else ms.2

/-- The loop state after the whole queue has been drained. -/
def loopFinal (cfg : Config) (summ : Summarizer) (st0 : GlobalState)
    (sid : String) (run : Run) : LoopState :=
  runLoop cfg summ sid (initLoop (postSpawnState cfg st0 sid)) run.items

/-- The diagnostic fragment yielded for a non-zero exit with no content
(`f"[Codex CLI error: exit code {exit_code}]"`). -/
def exitMsg (code : Int) : String :=
  "[Codex CLI error: exit code " ++ toString code ++ "]"

/-- The observable result of one `response(...)` call: the built argv,
the fragments yielded in order, the exception that escaped the generator
(if any), and the shared state afterwards. -/
structure RespResult where
  command : List String
  chunks : List String
  raised : Option PyError
  state : GlobalState

/-- Embedding of `LLMProvider.response`.  The summarizer is the external
collaborator described at `Summarizer`; the `Run` supplies the observed
child-process behaviour.  Mirrors the source: mode resolution, prompt and
command construction, spawn-failure early returns, the early
`_mark_prompt_sent`, the streaming loop, the non-zero-exit diagnostic
(skipped when an exception is in flight, as `proc.wait()` is inside the
`try`), and the `finally` block's unblock. -/
def response (cfg : Config) (summ : Summarizer) (st0 : GlobalState)
    (sid : String) (dialogue : List Message) (run : Run) : RespResult :=
  let ms := get_effective_prompt_mode cfg st0 sid
  let effective_prompt_mode := ms.1
  let st1 := ms.2
  let prompt := build_prompt dialogue effective_prompt_mode
  let resume_id := if cfg.resume_session then get_resume_id sid st1.sessionMap else none
  let command := build_command cfg resume_id
  let command :=
    if !cfg.prompt_via_stdin then
      match prompt with
      | some p => if p ≠ "" then command ++ [p] else command
      | none => command
    else command
  match run.spawn with
  | .fileNotFound =>
      { command := command, chunks := ["[Codex CLI error: command not found]"],
        raised := none, state := st1 }
  | .startError =>
      { command := command, chunks := ["[Codex CLI error: failed to start]"],
        raised := none, state := st1 }
  | .ok =>
      let st2 := postSpawnState cfg st0 sid
      let sF := loopFinal cfg summ st0 sid run
      let sF :=
        if sF.raised.isNone && run.exitCode ≠ 0 && !sF.stdout_started then
          { sF with chunks := sF.chunks ++ [exitMsg run.exitCode] }
        else sF
      let sF :=
        if sF.abort_blocked then
          { sF with reg := unblock_abort sid sF.reg, abort_blocked := false }
        else sF
      { command := command, chunks := sF.chunks, raised := sF.raised,
        state := { abortBlocked := sF.reg, sessionMap := sF.sessionMap,
                   promptModeState := st2.promptModeState,
                   warnedMissingResume := st2.warnedMissingResume } }

/-- The `for chunk in self.response(...): yield chunk, None` loop of
`response_with_functions`: each fragment is paired with `None` in the
tool-call slot (modelled as `Option Unit`). -/
def pairLoop : List String → List (String × Option Unit)
  | [] => []
  | c :: cs => (c, none) :: pairLoop cs

/-- The observable result of one `response_with_functions(...)` call. -/
structure RwfResult where
  command : List String
  pairs : List (String × Option Unit)
  raised : Option PyError
  state : GlobalState

/-- Embedding of `LLMProvider.response_with_functions`: iterate
`response` and pair each fragment with `None`; the `functions` argument
is accepted and unused. -/
def response_with_functions (cfg : Config) (summ : Summarizer) (st0 : GlobalState)
    (sid : String) (dialogue : List Message) (functions : Option (List String))
    (run : Run) : RwfResult :=
  let r := response cfg summ st0 sid dialogue run
  { command := r.command, pairs := pairLoop r.chunks,
    raised := r.raised, state := r.state }

/-- Did this call complete without raising? -/
def exceptOk {α : Type} : Except PyError α → Bool
  | .ok _ => true
  | .error _ => false

/-- A queue item whose event none of the three per-event helpers raise
on (empty lines are always safe). -/
def itemSafe (cfg : Config) (it : RunItem) : Bool :=
  match it.line with
  | none => true
  | some e =>
      exceptOk (extract_text_chunks e) && exceptOk (event_to_text e)
        && exceptOk (format_debug_event cfg e)

/-- Role label table as the spec states it (`System/Assistant/Tool/User`,
unrecognized roles default to `User`). -/
def roleLabel (r : String) : String :=
  if r = "system" then "System"
  else if r = "assistant" then "Assistant"
  else if r = "tool" then "Tool"
  else "User"

/-- One dialogue line rendered as the spec words it:
`"<Role>: <content>"` with a missing/null content as the empty string. -/
def renderSpec (m : Message) : String :=
  roleLabel (m.role.getD "user") ++ ": " ++ contentStr m

/-- Registry/flag synchronisation invariant of the streaming loop: the
shared registry entry for this session mirrors the local `abort_blocked`
flag, and once content has started the flag is down. -/
def RegSync (sid : String) (s : LoopState) : Prop :=
  is_abort_blocked sid s.reg = s.abort_blocked
  ∧ (s.stdout_started = true → s.abort_blocked = false)

/-- Before any content chunk is yielded, everything yielded so far is a
status-marked fragment (or an empty debug artefact). -/
def StatusOnly (s : LoopState) : Prop :=
  s.stdout_started = false →
    ∀ c ∈ s.chunks, pyStartsWith c statusMark = true ∨ c = ""

/-- A baseline configuration for concrete runs (the constructor defaults
of `LLMProvider.__init__` with the default `["exec", "--json", "-"]`
argument vector). -/
def cfgW : Config :=
  { command := "codex", args := ["exec", "--json", "-"],
    prompt_mode := "full_dialogue", prompt_via_stdin := true,
    debug_events := false, debug_event_target := "log",
    debug_command_output := false, debug_command_output_max_chars := 2000,
    stderr_summary_enabled := true, stderr_summary_min_interval := 0,
    resume_session := false }

/-- Fresh shared state: all registries empty. -/
def stW : GlobalState :=
  { abortBlocked := [], sessionMap := [], promptModeState := [],
    warnedMissingResume := false }

/-- A summarizer that never produces a summary. -/
def summW : Summarizer := fun _ => none

/-- A fake child emitting two delta events and exiting 0. -/
def runHelloW : Run :=
  { spawn := .ok, exitCode := 0, items :=
      [⟨.stdout, some (.jobj [("type", .jstr "x.delta"), ("delta", .jstr "Hel")]), 0⟩,
       ⟨.stdout, some (.jobj [("type", .jstr "x.delta"), ("delta", .jstr "lo")]), 0⟩] }

/-- A fake child producing nothing and exiting 2. -/
def runExit2W : Run := { spawn := .ok, exitCode := 2, items := [] }

/-- A fake child emitting a syntactically valid JSON event whose `type`
value is the number `1`, then exiting 0. -/
def runBadTypeW : Run :=
  { spawn := .ok, exitCode := 0, items :=
      [⟨.stdout, some (.jobj [("type", .jnum 1)]), 0⟩] }

/-- The baseline configuration with `--json` duplicated in the base
argument vector. -/
def cfgDupJsonW : Config := { cfgW with args := ["exec", "--json", "--json"] }

/-- The baseline configuration in hybrid prompt mode with resumption. -/
def cfgFFTLW : Config :=
  { cfgW with prompt_mode := "first_full_then_last", resume_session := true }

/-- The UUID of the spec's extractor examples. -/
def uuidW : String := "3fa85f64-5717-4562-b3fc-2c963f66afa6"

/-- Dialogue `[{user,"a"},{assistant,"b"},{user,"c"}]` of the spec. -/
def dlgW : List Message :=
  [⟨some "user", some (some "a")⟩, ⟨some "assistant", some (some "b")⟩,
   ⟨some "user", some (some "c")⟩]

/-- Dialogue `[{system,"S"},{user,"U"}]` of the spec. -/
def dlgW2 : List Message :=
  [⟨some "system", some (some "S")⟩, ⟨some "user", some (some "U")⟩]

theorem dictGet_insert_self {β : Type} (k : String) (v : β) (d : List (String × β)) :
    dictGet k (dictInsert k v d) = some v := by
  induction d with
  | nil => simp [dictInsert, dictGet]
  | cons p rest ih =>
      obtain ⟨k', v'⟩ := p
      by_cases h : k' = k
      · simp [dictInsert, dictGet, h]
      · simp [dictInsert, dictGet, h, ih]

theorem dictGet_pop_self {β : Type} (k : String) (d : List (String × β)) :
    dictGet k (dictPop k d) = none := by
  induction d with
  | nil => rfl
  | cons p rest ih =>
      obtain ⟨k', v'⟩ := p
      by_cases h : k' = k
      · simpa [dictPop, List.filter, h] using ih
      · simpa [dictPop, List.filter, h, dictGet] using ih

theorem pop_eq_self_of_absent {β : Type} (k : String) (d : List (String × β))
    (h : dictGet k d = none) : dictPop k d = d := by
  induction d with
  | nil => rfl
  | cons p rest ih =>
      obtain ⟨k', v'⟩ := p
      by_cases hk : k' = k
      · simp [dictGet, hk] at h
      · simp only [dictGet, if_neg hk] at h
        simpa [dictPop, List.filter, hk] using ih h

theorem dictGetD_of_absent {β : Type} (k : String) (dflt : β) (d : List (String × β))
    (h : dictGet k d = none) : dictGetD k dflt d = dflt := by
  simp [dictGetD, h]

theorem is_abort_blocked_block (sid : String) (reg : AbortReg) (h : sid ≠ "") :
    is_abort_blocked sid (block_abort sid reg) = true := by
  simp [is_abort_blocked, block_abort, h, dictGetD, dictGet_insert_self]

theorem is_abort_blocked_unblock (sid : String) (reg : AbortReg) :
    is_abort_blocked sid (unblock_abort sid reg) = false := by
  by_cases h : sid = ""
  · simp [is_abort_blocked, h]
  · simp [is_abort_blocked, unblock_abort, h, dictGetD, dictGet_pop_self]

theorem listPref_append_self (a b : List Char) : listPref a (a ++ b) = true := by
  induction a with
  | nil => rfl
  | cons c cs ih => simp [listPref, ih]

theorem wrap_status_starts (t : String) (h : t ≠ "") :
    pyStartsWith (wrap_status t) statusMark = true := by
  rw [wrap_status, if_neg h, pyStartsWith, String.data_append]
  exact listPref_append_self _ _

theorem wrap_status_status_or_empty (t : String) :
    pyStartsWith (wrap_status t) statusMark = true ∨ wrap_status t = "" := by
  by_cases h : t = ""
  · right; simp [wrap_status, h]
  · left; exact wrap_status_starts t h

theorem exitMsg_data (n : Int) :
    (exitMsg n).data =
      '[' :: 'C' :: (("odex CLI error: exit code ".data ++ (toString n).data) ++ "]".data) := by
  show ((("[Codex CLI error: exit code ") ++ toString n) ++ "]").data = _
  rw [String.data_append, String.data_append]
  show (('[' :: 'C' :: "odex CLI error: exit code ".data) ++ (toString n).data) ++ "]".data = _
  simp

theorem exitMsg_not_status (n : Int) :
    pyStartsWith (exitMsg n) statusMark = false := by
  rw [pyStartsWith, exitMsg_data]
  rfl

theorem exitMsg_ne_empty (n : Int) : exitMsg n ≠ "" := by
  intro hcon
  have h := congrArg String.data hcon
  rw [exitMsg_data] at h
  simp at h

theorem RegSync_emit (sid : String) (cs : List String) (s : LoopState)
    (h : RegSync sid s) : RegSync sid (emitChunks sid cs s) := by
  induction cs generalizing s with
  | nil => exact h
  | cons c cs ih =>
      rw [emitChunks]
      by_cases hc : c = ""
      · simpa [hc] using ih _ h
      · simp only [if_neg hc]
        by_cases hs : s.stdout_started = true
        · simp only [hs, Bool.not_true, Bool.false_eq_true, if_false]
          exact ih _ ⟨h.1, fun _ => h.2 hs⟩
        · have hs' : s.stdout_started = false := by
            revert hs; cases s.stdout_started <;> simp
          simp only [hs', Bool.not_false, if_true]
          by_cases hb : s.abort_blocked = true
          · simp only [hb, if_true]
            exact ih _ ⟨is_abort_blocked_unblock sid _, fun _ => rfl⟩
          · have hb' : s.abort_blocked = false := by
              revert hb; cases s.abort_blocked <;> simp
            simp only [hb', Bool.false_eq_true, if_false]
            exact ih _ ⟨h.1.trans hb', fun _ => rfl⟩

theorem RegSync_stderrStep (cfg : Config) (summ : Summarizer) (sid : String)
    (s : LoopState) (event : JValue) (now : ℚ) (hsid : sid ≠ "")
    (h : RegSync sid s) : RegSync sid (stderrStep cfg summ sid s event now) := by
  obtain ⟨h1, h2⟩ := h
  simp only [stderrStep]
  split
  · exact ⟨h1, h2⟩
  · rename_i hguard
    have hss : s.stdout_started = false := by
      revert hguard; cases s.stdout_started <;> simp
    split
    · exact ⟨h1, h2⟩
    · split
      · exact ⟨h1, h2⟩
      · split
        · exact ⟨h1, h2⟩
        · split
          · exact ⟨h1, h2⟩
          · split
            · exact ⟨h1, h2⟩
            · split
              · exact ⟨h1, h2⟩
              · split
                · exact ⟨h1, h2⟩
                · by_cases hb : s.abort_blocked = true
                  · simp only [hb, Bool.not_true, Bool.false_eq_true, if_false]
                    exact ⟨h1.trans hb, fun hx => by rw [hss] at hx; cases hx⟩
                  · have hb' : s.abort_blocked = false := by
                      revert hb; cases s.abort_blocked <;> simp
                    simp only [hb', Bool.not_false, if_true]
                    refine ⟨?_, fun hx => by rw [hss] at hx; cases hx⟩
                    exact is_abort_blocked_block sid _ hsid

theorem RegSync_stdoutStep (cfg : Config) (sid : String)
    (s : LoopState) (event : JValue)
    (h : RegSync sid s) : RegSync sid (stdoutStep cfg sid s event) := by
  obtain ⟨h1, h2⟩ := h
  simp only [stdoutStep]
  split
  · exact ⟨h1, h2⟩
  · by_cases ht : cfg.debug_event_target = "status"
    · rw [if_pos ht]
      split
      · exact ⟨h1, h2⟩
      · exact RegSync_emit sid _ _ ⟨h1, h2⟩
    · rw [if_neg ht]
      split
      · exact ⟨h1, h2⟩
      · exact RegSync_emit sid _ _ ⟨h1, h2⟩

theorem RegSync_processItem (cfg : Config) (summ : Summarizer) (sid : String)
    (s : LoopState) (it : RunItem) (hsid : sid ≠ "")
    (h : RegSync sid s) : RegSync sid (processItem cfg summ sid s it) := by
  simp only [processItem]
  split
  · exact h
  · split
    · exact h
    · split
      · exact RegSync_stderrStep cfg summ sid _ _ _ hsid ⟨h.1, h.2⟩
      · exact RegSync_stdoutStep cfg sid _ _ ⟨h.1, h.2⟩

theorem RegSync_runLoop (cfg : Config) (summ : Summarizer) (sid : String)
    (items : List RunItem) (s : LoopState) (hsid : sid ≠ "")
    (h : RegSync sid s) : RegSync sid (runLoop cfg summ sid s items) := by
  induction items generalizing s with
  | nil => exact h
  | cons it rest ih =>
      rw [runLoop]
      exact ih _ (RegSync_processItem cfg summ sid s it hsid h)

theorem StatusOnly_emit (sid : String) (cs : List String) (s : LoopState)
    (h : StatusOnly s) : StatusOnly (emitChunks sid cs s) := by
  induction cs generalizing s with
  | nil => exact h
  | cons c cs ih =>
      rw [emitChunks]
      by_cases hc : c = ""
      · simpa [hc] using ih _ h
      · simp only [if_neg hc]
        by_cases hs : s.stdout_started = true
        · simp only [hs, Bool.not_true, Bool.false_eq_true, if_false]
          exact ih _ (fun hx => by cases hx)
        · have hs' : s.stdout_started = false := by
            revert hs; cases s.stdout_started <;> simp
          simp only [hs', Bool.not_false, if_true]
          by_cases hb : s.abort_blocked = true
          · simp only [hb, if_true]
            exact ih _ (fun hx => by cases hx)
          · have hb' : s.abort_blocked = false := by
              revert hb; cases s.abort_blocked <;> simp
            simp only [hb', Bool.false_eq_true, if_false]
            exact ih _ (fun hx => by cases hx)

theorem StatusOnly_stderrStep (cfg : Config) (summ : Summarizer) (sid : String)
    (s : LoopState) (event : JValue) (now : ℚ)
    (h : StatusOnly s) : StatusOnly (stderrStep cfg summ sid s event now) := by
  simp only [stderrStep]
  split
  · exact h
  · rename_i hguard
    have hss : s.stdout_started = false := by
      revert hguard; cases s.stdout_started <;> simp
    split
    · exact h
    · split
      · exact h
      · split
        · exact h
        · split
          · exact h
          · split
            · exact h
            · split
              · exact h
              · split
                · exact h
                · rename_i summary0 _ hne _ _
                  by_cases hb : s.abort_blocked = true
                  · simp only [hb, Bool.not_true, Bool.false_eq_true, if_false]
                    intro _ c hc
                    rcases List.mem_append.mp hc with hin | hone
                    · exact h hss c hin
                    · rcases List.mem_singleton.mp hone with rfl
                      exact Or.inl (wrap_status_starts _ hne)
                  · have hb' : s.abort_blocked = false := by
                      revert hb; cases s.abort_blocked <;> simp
                    simp only [hb', Bool.not_false, if_true]
                    intro _ c hc
                    rcases List.mem_append.mp hc with hin | hone
                    · exact h hss c hin
                    · rcases List.mem_singleton.mp hone with rfl
                      exact Or.inl (wrap_status_starts _ hne)

theorem StatusOnly_stdoutStep (cfg : Config) (sid : String)
    (s : LoopState) (event : JValue)
    (h : StatusOnly s) : StatusOnly (stdoutStep cfg sid s event) := by
  simp only [stdoutStep]
  split
  · exact h
  · by_cases ht : cfg.debug_event_target = "status"
    · rw [if_pos ht]
      split
      · intro hx c hc
        rcases List.mem_append.mp hc with hin | hmap
        · exact h hx c hin
        · rcases List.mem_map.mp hmap with ⟨d, _, rfl⟩
          exact wrap_status_status_or_empty d
      · apply StatusOnly_emit
        intro hx c hc
        rcases List.mem_append.mp hc with hin | hmap
        · exact h hx c hin
        · rcases List.mem_map.mp hmap with ⟨d, _, rfl⟩
          exact wrap_status_status_or_empty d
    · rw [if_neg ht]
      split
      · exact h
      · exact StatusOnly_emit sid _ _ h

theorem StatusOnly_processItem (cfg : Config) (summ : Summarizer) (sid : String)
    (s : LoopState) (it : RunItem)
    (h : StatusOnly s) : StatusOnly (processItem cfg summ sid s it) := by
  simp only [processItem]
  split
  · exact h
  · split
    · exact h
    · split
      · exact StatusOnly_stderrStep cfg summ sid _ _ _ h
      · exact StatusOnly_stdoutStep cfg sid _ _ h

theorem StatusOnly_runLoop (cfg : Config) (summ : Summarizer) (sid : String)
    (items : List RunItem) (s : LoopState)
    (h : StatusOnly s) : StatusOnly (runLoop cfg summ sid s items) := by
  induction items generalizing s with
  | nil => exact h
  | cons it rest ih =>
      rw [runLoop]
      exact ih _ (StatusOnly_processItem cfg summ sid s it h)

theorem emitChunks_raised (sid : String) (cs : List String) (s : LoopState) :
    (emitChunks sid cs s).raised = s.raised := by
  induction cs generalizing s with
  | nil => rfl
  | cons c cs ih =>
      rw [emitChunks]
      by_cases hc : c = ""
      · simp [hc, ih]
      · simp only [if_neg hc]
        by_cases hs : s.stdout_started = true
        · simp [hs, ih]
        · have hs' : s.stdout_started = false := by
            revert hs; cases s.stdout_started <;> simp
          by_cases hb : s.abort_blocked = true
          · simp [hs', hb, ih]
          · have hb' : s.abort_blocked = false := by
              revert hb; cases s.abort_blocked <;> simp
            simp [hs', hb', ih]

theorem stderrStep_raised (cfg : Config) (summ : Summarizer) (sid : String)
    (s : LoopState) (event : JValue) (now : ℚ)
    (hok : exceptOk (event_to_text event) = true) :
    (stderrStep cfg summ sid s event now).raised = s.raised := by
  simp only [stderrStep]
  split
  · rfl
  · split
    · rename_i e heq
      rw [heq] at hok
      simp [exceptOk] at hok
    · split
      · rfl
      · split
        · rfl
        · split
          · rfl
          · split
            · rfl
            · split
              · rfl
              · split
                · rfl
                · by_cases hb : s.abort_blocked = true
                  · simp [hb]
                  · have hb' : s.abort_blocked = false := by
                      revert hb; cases s.abort_blocked <;> simp
                    simp [hb']

theorem stdoutStep_raised (cfg : Config) (sid : String)
    (s : LoopState) (event : JValue)
    (hfmt : exceptOk (format_debug_event cfg event) = true)
    (hext : exceptOk (extract_text_chunks event) = true) :
    (stdoutStep cfg sid s event).raised = s.raised := by
  simp only [stdoutStep]
  split
  · rename_i e heq
    rw [heq] at hfmt
    simp [exceptOk] at hfmt
  · by_cases ht : cfg.debug_event_target = "status"
    · rw [if_pos ht]
      split
      · rename_i e heq
        rw [heq] at hext
        simp [exceptOk] at hext
      · rw [emitChunks_raised]
    · rw [if_neg ht]
      split
      · rename_i e heq
        rw [heq] at hext
        simp [exceptOk] at hext
      · rw [emitChunks_raised]

theorem processItem_raised (cfg : Config) (summ : Summarizer) (sid : String)
    (s : LoopState) (it : RunItem) (hsafe : itemSafe cfg it = true) :
    (processItem cfg summ sid s it).raised = s.raised := by
  simp only [processItem]
  split
  · rfl
  · split
    · rfl
    · rename_i event heq
      rw [itemSafe, heq] at hsafe
      simp only [Bool.and_eq_true] at hsafe
      split
      · exact stderrStep_raised cfg summ sid _ _ _ hsafe.1.2
      · exact stdoutStep_raised cfg sid _ _ hsafe.2 hsafe.1.1

theorem runLoop_raised (cfg : Config) (summ : Summarizer) (sid : String)
    (items : List RunItem) (s : LoopState)
    (hsafe : ∀ it ∈ items, itemSafe cfg it = true) :
    (runLoop cfg summ sid s items).raised = s.raised := by
  induction items generalizing s with
  | nil => rfl
  | cons it rest ih =>
      rw [runLoop]
      rw [ih _ (fun x hx => hsafe x (List.mem_cons_of_mem it hx))]
      exact processItem_raised cfg summ sid s it (hsafe it (List.mem_cons_self it rest))

theorem gepm_abortBlocked (cfg : Config) (st : GlobalState) (sid : String) :
    ((get_effective_prompt_mode cfg st sid).2).abortBlocked = st.abortBlocked := by
  simp only [get_effective_prompt_mode]
  split
  · rfl
  · split <;> split <;> first | rfl | (split <;> rfl)

theorem mark_abortBlocked (cfg : Config) (st : GlobalState) (sid : String) :
    (mark_prompt_sent cfg st sid).abortBlocked = st.abortBlocked := by
  simp only [mark_prompt_sent]
  split
  · rfl
  · split <;> rfl

theorem postSpawn_abortBlocked (cfg : Config) (st0 : GlobalState) (sid : String) :
    (postSpawnState cfg st0 sid).abortBlocked = st0.abortBlocked := by
  simp only [postSpawnState]
  split
  · rw [mark_abortBlocked, gepm_abortBlocked]
  · rw [gepm_abortBlocked]

theorem gepm_promptModeState (cfg : Config) (st : GlobalState) (sid : String) :
    ((get_effective_prompt_mode cfg st sid).2).promptModeState = st.promptModeState := by
  simp only [get_effective_prompt_mode]
  split
  · rfl
  · split <;> split <;> first | rfl | (split <;> rfl)

theorem lastUserLoop_no_user (l : List Message) (h : ∀ m ∈ l, m.role ≠ some "user") :
    lastUserLoop l = some "" := by
  induction l with
  | nil => rfl
  | cons m rest ih =>
      rw [lastUserLoop]
      rw [if_neg (h m (List.mem_cons_self m rest))]
      exact ih (fun x hx => h x (List.mem_cons_of_mem m hx))

theorem lastUserLoop_found (xs ys : List Message) (mid : Message)
    (hmid : mid.role = some "user") (hxs : ∀ m ∈ xs, m.role ≠ some "user") :
    lastUserLoop (xs ++ mid :: ys) = contentGet mid := by
  induction xs with
  | nil => simp [lastUserLoop, hmid]
  | cons x rest ih =>
      rw [List.cons_append, lastUserLoop,
        if_neg (hxs x (List.mem_cons_self x rest))]
      exact ih (fun m hm => hxs m (List.mem_cons_of_mem x hm))

theorem renderMsg_eq_renderSpec (m : Message) : renderMsg m = renderSpec m := by
  simp only [renderMsg, renderSpec, roleLabel]
  by_cases h1 : m.role.getD "user" = "system"
  · rw [if_pos h1, if_pos h1]
    exact congrArg (fun x => x ++ contentStr m) (by decide)
  · rw [if_neg h1, if_neg h1]
    by_cases h2 : m.role.getD "user" = "assistant"
    · rw [if_pos h2, if_pos h2]
      exact congrArg (fun x => x ++ contentStr m) (by decide)
    · rw [if_neg h2, if_neg h2]
      by_cases h3 : m.role.getD "user" = "tool"
      · rw [if_pos h3, if_pos h3]
        exact congrArg (fun x => x ++ contentStr m) (by decide)
      · rw [if_neg h3, if_neg h3]
        exact congrArg (fun x => x ++ contentStr m) (by decide)

theorem count_ensureTok_self (x : String) (l : List String) (h : l.count x ≤ 1) :
    (ensureTok x l).count x = 1 := by
  rw [ensureTok]
  by_cases hc : l.contains x = true
  · rw [if_pos hc]
    have hpos : 0 < l.count x := List.count_pos_iff.mpr (by simpa [List.contains] using hc)
    omega
  · rw [if_neg hc]
    have hmem : x ∉ l := fun hx => hc (by simpa [List.contains] using hx)
    rw [List.count_append, List.count_eq_zero.mpr hmem, List.count_singleton]
    simp

theorem count_ensureTok_other (x y : String) (l : List String) (hne : x ≠ y) :
    (ensureTok x l).count y = l.count y := by
  rw [ensureTok]
  split
  · rfl
  · rw [List.count_append, List.count_singleton]
    simp [hne]

theorem mem_ensureTok (x y : String) (l : List String) (h : y ∈ ensureTok x l) :
    y ∈ l ∨ y = x := by
  rw [ensureTok] at h
  revert h
  split
  · exact Or.inl
  · intro h
    rcases List.mem_append.mp h with hx | hx
    · exact Or.inl hx
    · simp at hx; exact Or.inr hx

theorem count_ensureStdinTok_dash (b : Bool) (l : List String) (h : l.count "-" ≤ 1) :
    (ensureStdinTok b l).count "-" = if b = true then 1 else (l.count "-") := by
  rw [ensureStdinTok]
  cases b with
  | false => simp
  | true =>
      simp only [Bool.true_and, if_true]
      by_cases hc : l.contains "-" = true
      · simp only [hc, Bool.not_true, Bool.false_eq_true, if_false]
        have hpos : 0 < l.count "-" :=
          List.count_pos_iff.mpr (by simpa [List.contains] using hc)
        omega
      · have hcf : l.contains "-" = false := by revert hc; cases l.contains "-" <;> simp
        simp only [hcf, Bool.not_false, if_true]
        have hmem : "-" ∉ l := fun hx => by
          rw [(by simpa [List.contains] using hx : l.contains "-" = true)] at hcf
          cases hcf
        rw [List.count_append, List.count_eq_zero.mpr hmem, List.count_singleton]
        simp

theorem count_ensureStdinTok_other (b : Bool) (y : String) (l : List String)
    (hne : y ≠ "-") : (ensureStdinTok b l).count y = l.count y := by
  rw [ensureStdinTok]
  split
  · rw [List.count_append, List.count_singleton,
      beq_eq_false_iff_ne.mpr (fun h => hne h.symm)]
    simp
  · rfl

theorem mem_ensureStdinTok (b : Bool) (y : String) (l : List String)
    (h : y ∈ ensureStdinTok b l) : y ∈ l ∨ y = "-" := by
  rw [ensureStdinTok] at h
  revert h
  split
  · intro h
    rcases List.mem_append.mp h with hx | hx
    · exact Or.inl hx
    · simp at hx; exact Or.inr hx
  · exact Or.inl

theorem count_ensureSubcommand_other (y : String) (l : List String)
    (hne : y ≠ "exec") : (ensureSubcommand l).count y = l.count y := by
  rw [ensureSubcommand]
  split
  · rfl
  · rw [List.count_cons, beq_eq_false_iff_ne.mpr (fun h => hne h.symm)]
    simp

theorem pairLoop_eq_map (cs : List String) :
    pairLoop cs = cs.map (fun c => (c, (none : Option Unit))) := by
  induction cs with
  | nil => rfl
  | cons c cs ih => rw [pairLoop, List.map_cons, ih]

/-- C1: for every run of `response` on a non-empty session id that starts
with the session not already abort-blocked, the per-session abort-block
flag is absent from the registry at every point of the streaming loop
from the moment the first non-empty content chunk has been yielded
(`stdout_started`), and on every exit path of `response` — normal
completion, early return on spawn failure, or an exception raised
mid-stream — the flag is not left set for that session. -/
theorem c1_abort_block_flag_invariant (cfg : Config) (summ : Summarizer)
    (st0 : GlobalState) (sid : String) (dialogue : List Message) (run : Run)
    (p suf : List RunItem) (hsid : sid ≠ "")
    (h0 : is_abort_blocked sid st0.abortBlocked = false)
    (hsplit : run.items = p ++ suf) :
    ((runLoop cfg summ sid (initLoop (postSpawnState cfg st0 sid)) p).stdout_started = true →
      is_abort_blocked sid
        (runLoop cfg summ sid (initLoop (postSpawnState cfg st0 sid)) p).reg = false)
    ∧ is_abort_blocked sid (response cfg summ st0 sid dialogue run).state.abortBlocked = false := by
  have hinit : RegSync sid (initLoop (postSpawnState cfg st0 sid)) := by
    constructor
    · show is_abort_blocked sid (postSpawnState cfg st0 sid).abortBlocked = false
      rw [postSpawn_abortBlocked]; exact h0
    · intro hx; cases hx
  constructor
  · intro hstarted
    have hsync := RegSync_runLoop cfg summ sid p _ hsid hinit
    rw [hsync.1]
    exact hsync.2 hstarted
  · cases hs : run.spawn with
    | fileNotFound =>
        simp only [response, hs]
        rw [gepm_abortBlocked]
        exact h0
    | startError =>
        simp only [response, hs]
        rw [gepm_abortBlocked]
        exact h0
    | ok =>
        simp only [response, hs]
        have hsync : RegSync sid (loopFinal cfg summ st0 sid run) :=
          RegSync_runLoop cfg summ sid run.items _ hsid hinit
        generalize hG : loopFinal cfg summ st0 sid run = sF
        rw [hG] at hsync
        by_cases hcond : (sF.raised.isNone && decide (run.exitCode ≠ 0) && !sF.stdout_started) = true
        · rw [if_pos hcond]
          by_cases hb : sF.abort_blocked = true
          · simp only [hb, if_true]
            exact is_abort_blocked_unblock sid _
          · have hb' : sF.abort_blocked = false := by
              revert hb; cases sF.abort_blocked <;> simp
            simp only [hb', Bool.false_eq_true, if_false]
            exact hsync.1.trans hb'
        · rw [if_neg hcond]
          by_cases hb : sF.abort_blocked = true
          · simp only [hb, if_true]
            exact is_abort_blocked_unblock sid _
          · have hb' : sF.abort_blocked = false := by
              revert hb; cases sF.abort_blocked <;> simp
            simp only [hb', Bool.false_eq_true, if_false]
            exact hsync.1.trans hb'

/-- C1 witness: the invariant instantiated on a fake child emitting two
content chunks. -/
theorem c1_witness :
    ((runLoop cfgW summW "s1" (initLoop (postSpawnState cfgW stW "s1"))
        runHelloW.items).stdout_started = true →
      is_abort_blocked "s1"
        (runLoop cfgW summW "s1" (initLoop (postSpawnState cfgW stW "s1"))
          runHelloW.items).reg = false)
    ∧ is_abort_blocked "s1"
        (response cfgW summW stW "s1" [] runHelloW).state.abortBlocked = false :=
  c1_abort_block_flag_invariant cfgW summW stW "s1" [] runHelloW
    runHelloW.items [] (by decide) (by decide) (by simp)

/-- C2: after a successful spawn whose streaming loop does not raise, a
non-zero exit with no content chunk ever yielded appends exactly one
final fragment reporting the exit code (and that fragment occurs exactly
once among the yielded fragments); a non-zero exit after content has
been yielded appends nothing. -/
theorem c2_exit_code_reporting (cfg : Config) (summ : Summarizer)
    (st0 : GlobalState) (sid : String) (dialogue : List Message) (run : Run)
    (hspawn : run.spawn = SpawnResult.ok)
    (hraise : (loopFinal cfg summ st0 sid run).raised = none)
    (hexit : run.exitCode ≠ 0) :
    ((loopFinal cfg summ st0 sid run).stdout_started = false →
      (response cfg summ st0 sid dialogue run).chunks
        = (loopFinal cfg summ st0 sid run).chunks ++ [exitMsg run.exitCode]
      ∧ (response cfg summ st0 sid dialogue run).chunks.count (exitMsg run.exitCode) = 1)
    ∧ ((loopFinal cfg summ st0 sid run).stdout_started = true →
      (response cfg summ st0 sid dialogue run).chunks
        = (loopFinal cfg summ st0 sid run).chunks) := by
  have hstat : StatusOnly (loopFinal cfg summ st0 sid run) := by
    apply StatusOnly_runLoop
    intro _ c hc
    cases hc
  simp only [response, hspawn]
  generalize hG : loopFinal cfg summ st0 sid run = sF
  rw [hG] at hraise hstat
  constructor
  · intro hss
    have hnotmem : exitMsg run.exitCode ∉ sF.chunks := by
      intro hmem
      rcases hstat hss _ hmem with hpre | hemp
      · rw [exitMsg_not_status] at hpre
        cases hpre
      · exact exitMsg_ne_empty run.exitCode hemp
    have hcond : (sF.raised.isNone && decide (run.exitCode ≠ 0) && !sF.stdout_started) = true := by
      simp [hraise, hexit, hss]
    rw [if_pos hcond]
    by_cases hb : sF.abort_blocked = true
    · simp only [hb, if_true]
      refine ⟨trivial, ?_⟩
      simp [List.count_append, List.count_eq_zero.mpr hnotmem]
    · have hb' : sF.abort_blocked = false := by
        revert hb; cases sF.abort_blocked <;> simp
      simp only [hb', Bool.false_eq_true, if_false]
      refine ⟨trivial, ?_⟩
      simp [List.count_append, List.count_eq_zero.mpr hnotmem]
  · intro hss
    have hcond : ¬((sF.raised.isNone && decide (run.exitCode ≠ 0) && !sF.stdout_started) = true) := by
      simp [hss]
    rw [if_neg hcond]
    by_cases hb : sF.abort_blocked = true
    · simp only [hb, if_true]
    · have hb' : sF.abort_blocked = false := by
        revert hb; cases sF.abort_blocked <;> simp
      simp only [hb', Bool.false_eq_true, if_false]

/-- C2 witness: a fake child exiting 2 with no output yields exactly the
one exit-code fragment. -/
theorem c2_witness :
    ((loopFinal cfgW summW stW "s1" runExit2W).stdout_started = false →
      (response cfgW summW stW "s1" [] runExit2W).chunks
        = (loopFinal cfgW summW stW "s1" runExit2W).chunks ++ [exitMsg runExit2W.exitCode]
      ∧ (response cfgW summW stW "s1" [] runExit2W).chunks.count
          (exitMsg runExit2W.exitCode) = 1)
    ∧ ((loopFinal cfgW summW stW "s1" runExit2W).stdout_started = true →
      (response cfgW summW stW "s1" [] runExit2W).chunks
        = (loopFinal cfgW summW stW "s1" runExit2W).chunks) :=
  c2_exit_code_reporting cfgW summW stW "s1" [] runExit2W
    (by decide) (by decide) (by decide)

/-- C3 counterexample: the child emits the syntactically valid JSON line
`{"type": 1}` on stdout; `_extract_codex_item_text` calls
`event.get("type", "").startswith("item.")` on the number `1`, the
resulting `AttributeError` is not caught (the loop's `try` has only a
`finally`), and it escapes the `response` generator, refuting "no error
raised inside the streaming loop escapes". -/
theorem c3_counterexample :
    (response cfgW summW stW "s1" [] runBadTypeW).raised = some PyError.attributeError := by
  decide

/-- C3 (amended): no error escapes the `response` generator on any run
whose events the three per-event helpers (`_extract_text_chunks`,
`_event_to_text`, `_format_debug_event`) process without raising — in
particular, with the summarizer modelled per the spec as total
(failure ⇒ no summary), every other failure mode degrades to a synthetic
fragment or a silent skip.  Events with a non-string `type` (or, with
debug enabled, non-string `text`/`status`/`aggregated_output`) are the
only inputs on which those helpers raise. -/
theorem c3_no_error_escape_amended (cfg : Config) (summ : Summarizer)
    (st0 : GlobalState) (sid : String) (dialogue : List Message) (run : Run)
    (hsafe : ∀ it ∈ run.items, itemSafe cfg it = true) :
    (response cfg summ st0 sid dialogue run).raised = none := by
  cases hs : run.spawn with
  | fileNotFound => simp [response, hs]
  | startError => simp [response, hs]
  | ok =>
      simp only [response, hs]
      have hr : (loopFinal cfg summ st0 sid run).raised = none :=
        runLoop_raised cfg summ sid run.items _ hsafe
      generalize hG : loopFinal cfg summ st0 sid run = sF
      rw [hG] at hr
      by_cases hcond : (sF.raised.isNone && decide (run.exitCode ≠ 0) && !sF.stdout_started) = true
      · rw [if_pos hcond]
        by_cases hb : sF.abort_blocked = true
        · simpa [hb] using hr
        · have hb' : sF.abort_blocked = false := by
            revert hb; cases sF.abort_blocked <;> simp
          simpa [hb'] using hr
      · rw [if_neg hcond]
        by_cases hb : sF.abort_blocked = true
        · simpa [hb] using hr
        · have hb' : sF.abort_blocked = false := by
            revert hb; cases sF.abort_blocked <;> simp
          simpa [hb'] using hr

/-- C3 witness: a well-typed two-chunk run raises nothing. -/
theorem c3_witness : (response cfgW summW stW "s1" [] runHelloW).raised = none :=
  c3_no_error_escape_amended cfgW summW stW "s1" [] runHelloW (by decide)

/-- C4 counterexample: with `--json` appearing twice in the configured
base arguments, the built command carries both occurrences — the builder
only appends the flag when absent, it never deduplicates — refuting
"exactly one machine-readable-output flag regardless of how many times
those flags already appear in the base arguments". -/
theorem c4_counterexample : (build_command cfgDupJsonW none).count "--json" ≠ 1 := by
  decide

/-- C4 (amended): when each of `--json` and `-` occurs at most once in
the configured base arguments (and the binary name and resume handle are
not themselves option tokens): without a resume handle the built command
contains exactly one `--json` and, when stdin delivery is enabled,
exactly one `-`; with a resume handle `H` it begins
`[binary, "exec", "resume", H]`, its tail carries no `exec`/`resume`/`e`
token from the base arguments and contains the stdin marker exactly once
iff stdin delivery is enabled, and `--json` exactly once.  (The builder
is a pure function, so building twice from the same inputs is trivially
the same vector.) -/
theorem c4_command_builder_amended (cfg : Config) (H : String)
    (hj : cfg.args.count "--json" ≤ 1) (hd : cfg.args.count "-" ≤ 1)
    (hH : H ≠ "") (hcj : cfg.command ≠ "--json") (hcd : cfg.command ≠ "-")
    (hHj : H ≠ "--json") :
    (build_command cfg none).count "--json" = 1
    ∧ (cfg.prompt_via_stdin = true → (build_command cfg none).count "-" = 1)
    ∧ (build_command cfg (some H)).take 4 = [cfg.command, "exec", "resume", H]
    ∧ (∀ a ∈ (build_command cfg (some H)).drop 4, a ≠ "exec" ∧ a ≠ "resume" ∧ a ≠ "e")
    ∧ ((build_command cfg (some H)).drop 4).count "-"
        = (if cfg.prompt_via_stdin = true then 1 else 0)
    ∧ (build_command cfg (some H)).count "--json" = 1 := by
  have hfreshdef : build_command cfg none =
      cfg.command ::
        ensureStdinTok cfg.prompt_via_stdin (ensureTok "--json" (ensureSubcommand cfg.args)) := by
    simp only [build_command, Option.getD]
    rw [if_neg (by simp)]
  have hresdef : build_command cfg (some H) =
      [cfg.command, "exec", "resume", H] ++
        ensureStdinTok cfg.prompt_via_stdin (ensureTok "--json" (filter_args cfg.args)) := by
    simp only [build_command, Option.getD]
    rw [if_pos hH]
  have hfa_not_dash : "-" ∉ filter_args cfg.args := by
    rw [filter_args]
    intro hx
    have h2 := (List.mem_filter.mp hx).2
    simp at h2
  have hfa_json : (filter_args cfg.args).count "--json" = cfg.args.count "--json" := by
    rw [filter_args]
    exact List.count_filter (by decide)
  refine ⟨?_, ?_, ?_, ?_, ?_, ?_⟩
  · rw [hfreshdef, List.count_cons]
    have hcmd : (cfg.command == "--json") = false := by
      simp [beq_iff_eq]; exact hcj
    rw [hcmd]
    simp only [Bool.false_eq_true, if_false, Nat.add_zero]
    rw [count_ensureStdinTok_other _ _ _ (by decide)]
    apply count_ensureTok_self
    rw [count_ensureSubcommand_other _ _ (by decide)]
    exact hj
  · intro hstdin
    rw [hfreshdef, List.count_cons]
    have hcmd : (cfg.command == "-") = false := by
      simp [beq_iff_eq]; exact hcd
    rw [hcmd]
    simp only [Bool.false_eq_true, if_false, Nat.add_zero]
    rw [count_ensureStdinTok_dash _ _ ?hle, if_pos hstdin]
    case hle =>
      rw [count_ensureTok_other _ _ _ (by decide),
        count_ensureSubcommand_other _ _ (by decide)]
      exact hd
  · rw [hresdef]
    simpa using List.take_left [cfg.command, "exec", "resume", H] _
  · rw [hresdef]
    intro a ha
    rw [show ((4 : Nat) = ([cfg.command, "exec", "resume", H]).length) from rfl,
      List.drop_left] at ha
    rcases mem_ensureStdinTok _ _ _ ha with ha | rfl
    · rcases mem_ensureTok _ _ _ ha with ha | rfl
      · rw [filter_args] at ha
        have h2 := (List.mem_filter.mp ha).2
        simp at h2
        refine ⟨?_, ?_, ?_⟩ <;> tauto
      · exact ⟨by decide, by decide, by decide⟩
    · exact ⟨by decide, by decide, by decide⟩
  · rw [hresdef]
    rw [show ((4 : Nat) = ([cfg.command, "exec", "resume", H]).length) from rfl,
      List.drop_left]
    rw [count_ensureStdinTok_dash _ _ ?hle2]
    case hle2 =>
      rw [count_ensureTok_other _ _ _ (by decide)]
      rw [List.count_eq_zero.mpr hfa_not_dash]
      omega
    split
    · rfl
    · rw [count_ensureTok_other _ _ _ (by decide)]
      exact List.count_eq_zero.mpr hfa_not_dash
  · rw [hresdef, List.count_append]
    have hhead : ([cfg.command, "exec", "resume", H]).count "--json" = 0 := by
      simp [List.count_cons, beq_iff_eq, hcj, hHj]
    rw [hhead, count_ensureStdinTok_other _ _ _ (by decide)]
    rw [count_ensureTok_self _ _ (hfa_json ▸ hj)]

/-- C4 witness: the amended builder properties at the default
configuration with a UUID resume handle. -/
theorem c4_witness :
    (build_command cfgW none).count "--json" = 1
    ∧ (cfgW.prompt_via_stdin = true → (build_command cfgW none).count "-" = 1)
    ∧ (build_command cfgW (some uuidW)).take 4 = [cfgW.command, "exec", "resume", uuidW]
    ∧ (∀ a ∈ (build_command cfgW (some uuidW)).drop 4, a ≠ "exec" ∧ a ≠ "resume" ∧ a ≠ "e")
    ∧ ((build_command cfgW (some uuidW)).drop 4).count "-"
        = (if cfgW.prompt_via_stdin = true then 1 else 0)
    ∧ (build_command cfgW (some uuidW)).count "--json" = 1 :=
  c4_command_builder_amended cfgW uuidW (by decide) (by decide) (by decide)
    (by decide) (by decide) (by decide)

/-- C5: the session-id extractor on structured events — a `session_id`
key yields its UUID directly; the well-known keys take priority in their
fixed order (`session_id` wins over an earlier-listed-in-the-dict
`conversation` value); an event whose UUID sits only inside an
unrecognized key (`data`) is still found via the fallback scan over the
event's JSON serialization; an event containing no UUID anywhere (even
with a well-known key present) yields none. -/
theorem c5_session_id_extractor :
    extract_session_id (.jobj [("session_id", .jstr uuidW)]) = some uuidW
    ∧ extract_session_id (.jobj [("data", .jobj [("id",
        .jstr ("not-a-uuid but contains " ++ uuidW ++ " embedded"))])]) = some uuidW
    ∧ extract_session_id (.jobj [("conversation",
        .jstr "11111111-1111-1111-1111-111111111111"), ("session_id", .jstr uuidW)])
      = some uuidW
    ∧ extract_session_id (.jobj [("data", .jstr "no identifier here"),
        ("id", .jstr "alpha")]) = none := by
  decide

/-- C6: the prompt builder — in `last_user` mode it returns the content
(`msg.get("content", "")`) of the most recent `user`-role message
scanning from the end, or the empty string when no user message exists;
in `full_dialogue` mode it renders every message as `"<Role>: <content>"`
joined by newlines with labels `System`/`Assistant`/`Tool`/`User`,
unrecognized (or absent) roles mapping to `User` and a missing or null
content to the empty string (as `renderSpec`/`contentStr` state). -/
theorem c6_prompt_builder (d : List Message) :
    ((∀ m ∈ d, m.role ≠ some "user") → build_prompt d "last_user" = some "")
    ∧ (∀ before mid after, d = before ++ mid :: after → mid.role = some "user" →
        (∀ m ∈ after, m.role ≠ some "user") →
        build_prompt d "last_user" = contentGet mid)
    ∧ build_prompt d "full_dialogue" = some (joinNL (d.map renderSpec)) := by
  refine ⟨?_, ?_, ?_⟩
  · intro h
    rw [build_prompt, if_pos rfl]
    exact lastUserLoop_no_user _ (fun m hm => h m (List.mem_reverse.mp hm))
  · intro before mid after hsplit hmid hafter
    rw [build_prompt, if_pos rfl, hsplit]
    rw [show (before ++ mid :: after).reverse = after.reverse ++ mid :: before.reverse by
      simp]
    exact lastUserLoop_found _ _ mid hmid (fun m hm => hafter m (List.mem_reverse.mp hm))
  · rw [build_prompt]
    rw [if_neg (by decide)]
    have hmap : d.map renderMsg = d.map renderSpec :=
      List.map_congr_left (fun m _ => renderMsg_eq_renderSpec m)
    rw [hmap]

/-- C6 witness: the spec's two prompt-builder examples. -/
theorem c6_witness :
    build_prompt dlgW "last_user" = some "c"
    ∧ build_prompt dlgW2 "full_dialogue" = some ("System: S" ++ "\n" ++ "User: U") := by
  constructor
  · have h := (c6_prompt_builder dlgW).2.1
      [⟨some "user", some (some "a")⟩, ⟨some "assistant", some (some "b")⟩]
      ⟨some "user", some (some "c")⟩ [] rfl rfl (by simp)
    exact h.trans rfl
  · exact ((c6_prompt_builder dlgW2).2.2).trans (by decide)

/-- C7 counterexample: in hybrid mode with resumption, a turn whose child
spawns but then fails (exit code 2, no output — `response` yields only
the exit-code diagnostic and no content) still flips the per-session
prompt-mode state to "sent", because `_mark_prompt_sent` runs right
after the successful spawn; this refutes "the transition happens only
after a turn using full_dialogue completes successfully". -/
theorem c7_counterexample :
    dictGet "s1" (response cfgFFTLW summW stW "s1" [] runExit2W).state.promptModeState
      = some true
    ∧ (response cfgFFTLW summW stW "s1" [] runExit2W).chunks = [exitMsg 2]
    ∧ (loopFinal cfgFFTLW summW stW "s1" runExit2W).stdout_started = false := by
  decide

/-- C7 (amended): under configured mode `first_full_then_last` with a
non-empty session id, the per-session prompt-mode state transitions to
"sent" exactly when the child process of a turn whose effective mode is
`full_dialogue` is spawned successfully — before any streaming — so
later failures of the turn do not prevent the transition, while a spawn
failure leaves the state untouched. -/
theorem c7_prompt_mode_transition_amended (cfg : Config) (summ : Summarizer)
    (st0 : GlobalState) (sid : String) (dialogue : List Message) (run : Run)
    (hmode : cfg.prompt_mode = "first_full_then_last") (hsid : sid ≠ "") :
    (run.spawn = SpawnResult.ok →
      (get_effective_prompt_mode cfg st0 sid).1 = "full_dialogue" →
      dictGet sid (response cfg summ st0 sid dialogue run).state.promptModeState
        = some true)
    ∧ (run.spawn ≠ SpawnResult.ok →
      (response cfg summ st0 sid dialogue run).state.promptModeState
        = st0.promptModeState) := by
  constructor
  · intro hsp heff
    simp only [response, hsp]
    show dictGet sid (postSpawnState cfg st0 sid).promptModeState = some true
    rw [postSpawnState, if_pos heff, mark_prompt_sent, if_neg (by rw [hmode]; simp),
      if_neg hsid]
    show dictGet sid (dictInsert sid true _) = some true
    exact dictGet_insert_self sid true _
  · intro hsp
    cases hs : run.spawn with
    | ok => exact absurd hs hsp
    | fileNotFound =>
        simp only [response, hs]
        exact gepm_promptModeState cfg st0 sid
    | startError =>
        simp only [response, hs]
        exact gepm_promptModeState cfg st0 sid

/-- C7 witness: the amended transition rule at the hybrid configuration
on the failing-turn run. -/
theorem c7_witness :
    (runExit2W.spawn = SpawnResult.ok →
      (get_effective_prompt_mode cfgFFTLW stW "s1").1 = "full_dialogue" →
      dictGet "s1" (response cfgFFTLW summW stW "s1" [] runExit2W).state.promptModeState
        = some true)
    ∧ (runExit2W.spawn ≠ SpawnResult.ok →
      (response cfgFFTLW summW stW "s1" [] runExit2W).state.promptModeState
        = stW.promptModeState) :=
  c7_prompt_mode_transition_amended cfgFFTLW summW stW "s1" [] runExit2W
    (by decide) (by decide)

/-- C8: the abort-block registry — after `block(s)` the session reads as
blocked; after `unblock(s)` it reads as unblocked; both operations on a
session that was never blocked (key absent) are safe no-ops with
`is_blocked` returning false; and all three operations on an empty
session identifier leave the registry unchanged with `is_blocked`
returning false. -/
theorem c8_abort_registry (s : String) (reg : AbortReg) (hs : s ≠ "") :
    is_abort_blocked s (block_abort s reg) = true
    ∧ is_abort_blocked s (unblock_abort s reg) = false
    ∧ (dictGet s reg = none →
        unblock_abort s reg = reg ∧ is_abort_blocked s reg = false)
    ∧ (block_abort "" reg = reg ∧ unblock_abort "" reg = reg
        ∧ is_abort_blocked "" reg = false) := by
  refine ⟨is_abort_blocked_block s reg hs, is_abort_blocked_unblock s reg, ?_, ?_⟩
  · intro habs
    constructor
    · rw [unblock_abort, if_neg hs]
      exact pop_eq_self_of_absent s reg habs
    · rw [is_abort_blocked, if_neg hs]
      exact dictGetD_of_absent s false reg habs
  · exact ⟨by rw [block_abort]; simp, by rw [unblock_abort]; simp,
      by rw [is_abort_blocked]; simp⟩

/-- C8 witness: the registry laws at a concrete session and registry. -/
theorem c8_witness :
    is_abort_blocked "s1" (block_abort "s1" [("other", true)]) = true
    ∧ is_abort_blocked "s1" (unblock_abort "s1" [("other", true)]) = false
    ∧ (dictGet "s1" [("other", true)] = none →
        unblock_abort "s1" [("other", true)] = [("other", true)]
        ∧ is_abort_blocked "s1" [("other", true)] = false)
    ∧ (block_abort "" [("other", true)] = [("other", true)]
        ∧ unblock_abort "" [("other", true)] = [("other", true)]
        ∧ is_abort_blocked "" [("other", true)] = false) :=
  c8_abort_registry "s1" [("other", true)] (by decide)

/-- C9 counterexample: for the non-empty text `" a"` (leading space),
`extract_status (wrap_status " a")` is `"a"`, not `" a"` — the unwrap
applies `lstrip()` after removing the prefix — refuting
"extract_status(wrap_status(t)) equals t for every non-empty t". -/
theorem c9_counterexample :
    " a" ≠ "" ∧ extract_status (wrap_status " a") ≠ some " a" := by
  decide

/-- C9 (amended): for every non-empty `t`, unwrapping a wrapped status
fragment returns the remainder after the fixed status prefix with its
leading whitespace stripped — equal to `t` itself whenever `t` does not
start with whitespace — and `extract_status` on any string that does not
begin with the status prefix returns none. -/
theorem c9_status_unwrap_amended (t s : String) (ht : t ≠ "") :
    extract_status (wrap_status t) = some (pyLstrip t)
    ∧ (pyStartsWith s statusMark = false → extract_status s = none) := by
  constructor
  · rw [wrap_status, if_neg ht, extract_status]
    rw [if_neg (fun hcon => by
      have hd := congrArg String.data hcon
      rw [String.data_append] at hd
      have hne : statusMark.data ≠ [] := by decide
      cases hmk : statusMark.data with
      | nil => exact hne hmk
      | cons c rest => rw [hmk] at hd; cases hd)]
    rw [if_pos (by rw [pyStartsWith, String.data_append]; exact listPref_append_self _ _)]
    have hdrop : pyDrop (pyLen statusMark) (statusMark ++ t) = t := by
      show String.mk ((statusMark ++ t).data.drop (pyLen statusMark)) = t
      rw [String.data_append,
        show pyLen statusMark = statusMark.data.length from rfl, List.drop_left]
    rw [hdrop]
  · intro hns
    rw [extract_status]
    by_cases hse : s = ""
    · rw [if_pos hse]
    · rw [if_neg hse, if_neg (by rw [hns]; simp)]

/-- C9 witness: the amended unwrap laws at concrete strings. -/
theorem c9_witness :
    extract_status (wrap_status "ok") = some (pyLstrip "ok")
    ∧ (pyStartsWith "plain" statusMark = false → extract_status "plain" = none) :=
  c9_status_unwrap_amended "ok" "plain" (by decide)

/-- C10: `response_with_functions` yields exactly the fragments of
`response`, in order, each paired with `None` in the tool-call slot; the
exception behaviour, shared state and built command are identical; and
the `functions` argument has no effect on the output. -/
theorem c10_response_with_functions (cfg : Config) (summ : Summarizer)
    (st0 : GlobalState) (sid : String) (dialogue : List Message)
    (functions functions2 : Option (List String)) (run : Run) :
    (response_with_functions cfg summ st0 sid dialogue functions run).pairs
      = (response cfg summ st0 sid dialogue run).chunks.map
          (fun c => (c, (none : Option Unit)))
    ∧ (response_with_functions cfg summ st0 sid dialogue functions run).raised
      = (response cfg summ st0 sid dialogue run).raised
    ∧ (response_with_functions cfg summ st0 sid dialogue functions run).state
      = (response cfg summ st0 sid dialogue run).state
    ∧ (response_with_functions cfg summ st0 sid dialogue functions run).command
      = (response cfg summ st0 sid dialogue run).command
    ∧ response_with_functions cfg summ st0 sid dialogue functions run
      = response_with_functions cfg summ st0 sid dialogue functions2 run :=
  ⟨pairLoop_eq_map _, rfl, rfl, rfl, rfl⟩
